import Mathlib

/-!
Shallow embedding of the onyxia Volume engine
(src/libonyxia/src/store/volume.rs).

A volume is a pair of files: a data file holding needle records
(4-byte length header followed by the body bytes) and an index file
holding one record per successful write.  The embedding models file
contents as lists of bytes (`List Nat`), the in-memory index
`HashMap<String, RawIndex>` as an association list with replace-on-insert
semantics, and the fallible operations as functions into
`Volume × Except VError Unit` or `Except VError _`.

The `Needle`, `NeedleHeader`, `Index` and `RawIndex` types live in
crate modules (`crate::needle`, `crate::index`) whose sources are not
part of the provided tree; their shapes are modelled from the spec and
marked as such in the doc comments below.  Everything else is translated
directly from `volume.rs`.
-/

/-- Error kinds of the engine, one constructor per error family used by
`volume.rs` (`error::VolumeError::overflow`, `write_length_mismatch`,
`data_corruption`, `Error::not_found`, `Error::io`, `Error::channel`, ...).
The structured payloads (ids, offsets, messages) are dropped: the claims
only distinguish error kinds. -/
inductive VError where
  | overflow
  | writeLengthMismatch
  | notFound
  | dataCorruption
  | ioError
  | channelFailure
  | alreadyExists
  | openVolumeError
deriving DecidableEq

/-- Modelled from the spec (crate::index is not under src/):
`RawIndexEntry{volume_id, offset, length}`, the in-memory form of an index
record; `offset`/`length` are `usize` in the source, embedded as `Nat`. -/
structure RawIndex where
  volume_id : Nat
  offset : Nat
  length : Nat
deriving DecidableEq

/-- Modelled from the spec (crate::index is not under src/): the persisted
index record `{path, volume_id, offset, length}`; `length` includes the
4-byte needle header. -/
structure Index where
  path : String
  volume_id : Nat
  offset : Nat
  length : Nat
deriving DecidableEq

/-- Modelled from the spec (crate::index is not under src/): the value
produced by the `Default` derive on `RawIndex`, used by `open_indexes` as
the initial `last_index` — all fields zero. -/
def RawIndex.zero : RawIndex := ⟨0, 0, 0⟩

/-- The `Volume` struct of `volume.rs`.  The three `File` handles are
replaced by the byte content they address: `data` is the data file's
bytes (the `writable_volume`/`readonly_volume` handles), `indexFile` is
the sequence of records appended to the index file handle.  `volume_path`
is dropped (no claim mentions it). -/
structure Volume where
  id : Nat
  data : List Nat
  currentLength : Nat
  maxLength : Nat
  indexFile : List Index
  indexes : List (String × RawIndex)
deriving DecidableEq

/-- Lookup in the association-list model of `HashMap<String, RawIndex>`:
the first binding for the key wins (there is at most one, see `ainsert`). -/
def alookup : List (String × RawIndex) → String → Option RawIndex
  | [], _ => none
  | (k, v) :: rest, key => if k = key then some v else alookup rest key

/-- Insert in the association-list model of `HashMap<String, RawIndex>`:
replaces the existing binding for the key, as `HashMap::insert` does. -/
def ainsert : List (String × RawIndex) → String → RawIndex → List (String × RawIndex)
  | [], key, v => [(key, v)]
  | (k, w) :: rest, key, v =>
    if k = key then (key, v) :: rest else (k, w) :: ainsert rest key v

/-- Modelled from the spec §4.1 (crate::needle is not under src/): the
needle codec's 4-byte fixed-width length prefix; the spec leaves the byte
order to the implementation as long as it is used consistently, big-endian
is chosen here. -/
def encodeU32 (n : Nat) : List Nat :=
  [n / 16777216 % 256, n / 65536 % 256, n / 256 % 256, n % 256]

/-- Modelled from the spec §4.1 (crate::needle is not under src/): decode
of the 4-byte length prefix, the inverse of `encodeU32`; any list that is
not exactly 4 bytes decodes to 0 (the real `read_exact` guarantees 4). -/
def decodeU32 : List Nat → Nat
  | [a, b, c, d] => a * 16777216 + b * 65536 + c * 256 + d
  | _ => 0

/-- Modelled from the spec (crate::needle is not under src/): a needle as
consumed by `write_needle` — `total_length()` is the declared total
(4 + declared body length) and `into_iter()` yields fallible byte chunks
(`Result<Bytes>`), header first. -/
structure NeedleSrc where
  totalLength : Nat
  chunks : List (Except VError (List Nat))

/-- A well-formed needle for body `b`, as produced by the codec: declared
total `4 + b.length`, iteration yields the encoded header then the body. -/
def needleOf (b : List Nat) : NeedleSrc :=
  ⟨4 + b.length, [Except.ok (encodeU32 b.length), Except.ok b]⟩

/-- Body of a needle returned by the read path: either one in-memory
buffer (`NeedleBody::SinglePart`) or the receiver end of the producer
channel (`NeedleBody::MultiParts`), represented by the state the spawned
producer starts from — its initial file position, its `remains` counter
and its buffer (batch) size. -/
inductive NBody where
  | single (bytes : List Nat)
  | multi (pos remains batch : Nat)
deriving DecidableEq

/-- The needle returned by the read path: decoded header plus body. -/
structure NeedleRead where
  bodyLength : Nat
  body : NBody
deriving DecidableEq

/-- `Volume::writable`: `current_length < max_length`. -/
def Volume.writable (v : Volume) : Bool := v.currentLength < v.maxLength

/-- `Volume::readonly`: negation of `writable`. -/
def Volume.readonly (v : Volume) : Bool := ! v.writable

/-- `Volume::can_write`: false when read-only, otherwise
`current_length + length <= max_length`. -/
def canWrite (v : Volume) (length : Nat) : Bool :=
  if v.readonly then false else v.currentLength + length ≤ v.maxLength

/-- Net effect on the data file of seeking to `pos` and writing `bs`
sequentially (`seek(SeekFrom::Start(current_length))` followed by the
`write_all` calls through the `BufWriter`): bytes `[pos, pos+len)` are
replaced, a seek past the end leaves a zero-filled hole.  (The handle is
also in append mode, which POSIX redirects to end-of-file; every theorem
below only uses states with `pos = data.length`, where the two readings
coincide.) -/
def writeAt (d : List Nat) (pos : Nat) (bs : List Nat) : List Nat :=
  d.take pos ++ List.replicate (pos - d.length) 0 ++ bs ++ d.drop (pos + bs.length)

/-- The chunk-draining loop of `write_needle`: concatenates the bytes of
the `Ok` chunks up to (not including) the first `Err`, and reports that
error if any.  The returned bytes are exactly those flushed to the data
file (the `BufWriter` flushes on drop when the function returns early). -/
def collectChunks : List (Except VError (List Nat)) → List Nat × Option VError
  | [] => ([], none)
  | Except.ok b :: rest =>
    let r := collectChunks rest
    (b ++ r.1, r.2)
  | Except.error e :: _ => ([], some e)

/-- `Volume::write_needle`: capacity check, stream the chunks at
`current_length`, compare received with declared length, then append the
index record, bump `current_length` and update the map.  The mutated
volume is returned alongside the result so failures can be observed to
leave the logical state unchanged while the data file may have grown. -/
def writeNeedle (v : Volume) (path : String) (n : NeedleSrc) :
    Volume × Except VError Unit :=
  if canWrite v n.totalLength then
    let res := collectChunks n.chunks
    let data2 := writeAt v.data v.currentLength res.1
    match res.2 with
    | some e => ({ v with data := data2 }, Except.error e)
    | none =>
      if res.1.length ≠ n.totalLength then
        ({ v with data := data2 }, Except.error VError.writeLengthMismatch)
      else
        ({ v with
            data := data2,
            currentLength := v.currentLength + n.totalLength,
            indexFile := v.indexFile ++ [⟨path, v.id, v.currentLength, n.totalLength⟩],
            indexes := ainsert v.indexes path ⟨v.id, v.currentLength, n.totalLength⟩ },
          Except.ok ())
  else (v, Except.error VError.overflow)

/-- Bytes `[off, off+len)` of a file, the effect of a positioned read. -/
def extractBytes (d : List Nat) (off len : Nat) : List Nat :=
  (d.drop off).take len

/-- `Volume::read_needle_header`: seek to `offset`, `read_exact` 4 bytes,
decode them; `read_exact` fails when fewer than 4 bytes are available. -/
def readNeedleHeader (d : List Nat) (offset : Nat) : Except VError Nat :=
  if offset + 4 ≤ d.length then Except.ok (decodeU32 (extractBytes d offset 4))
  else Except.error VError.ioError

/-- `Volume::read_needle`.  Decode the header at `index.offset` (the
mismatch between `body_length` and `index.length - 4` is only logged in
the source and has no effect, so it is not modelled); `batch_size` is
1 MiB capped at the declared body length; when `index.length <= 1 MiB`
one `read_exact` of `batch_size` bytes at `offset + 4` yields a
single-part body, otherwise a producer thread is spawned whose starting
state (position `offset + 4`, counter `remains = index.length`, buffer
size `batch_size`) is recorded in the multi-part body. -/
def readNeedle (v : Volume) (index : RawIndex) : Except VError NeedleRead :=
  match readNeedleHeader v.data index.offset with
  | Except.error e => Except.error e
  | Except.ok bodyLength =>
    let batchSize := if bodyLength > 1048576 then 1048576 else bodyLength
    if index.length ≤ 1048576 then
      if index.offset + 4 + batchSize ≤ v.data.length then
        Except.ok ⟨bodyLength, NBody.single (extractBytes v.data (index.offset + 4) batchSize)⟩
      else Except.error VError.ioError
    else
      Except.ok ⟨bodyLength, NBody.multi (index.offset + 4) index.length batchSize⟩

/-- `Volume::get`: map lookup (`NotFound` when absent), the
`offset + length > current_length` corruption guard, then `read_needle`. -/
def Volume.get (v : Volume) (path : String) : Except VError NeedleRead :=
  match alookup v.indexes path with
  | none => Except.error VError.notFound
  | some index =>
    if index.offset + index.length > v.currentLength then
      Except.error VError.dataCorruption
    else readNeedle v index

/-- The producer loop spawned by `read_needle` for large needles, as a
fuel-indexed function: each iteration with `remains > 0` reads up to
`batch` bytes at the current position (a `read` past end-of-file returns
0 bytes), subtracts the count from `remains` and sends the chunk; `none`
means the loop has not finished within `fuel` iterations.  Reads from the
in-memory byte list never fail, so the error branches of the source loop
(send the error, stop) are unreachable here.  `remains -= current` is
embedded as truncated `Nat` subtraction; no theorem below visits a state
where `current > remains` (where Rust would panic or wrap). -/
def producerLoop (data : List Nat) (batch : Nat) : Nat → Nat → Nat → Option (List (List Nat))
  | 0, _, _ => none
  | fuel + 1, pos, remains =>
    if remains = 0 then some []
    else
      match producerLoop data batch fuel (pos + min batch (data.length - pos))
          (remains - min batch (data.length - pos)) with
      | none => none
      | some rest => some ((data.drop pos).take (min batch (data.length - pos)) :: rest)

/-- Bytes delivered to the caller for a needle returned by the read path:
a single-part body is its buffer; a multi-part body is the concatenation
of the chunks the producer sends, `none` when the producer loop does not
terminate.  Fuel `remains + 1` is enough for every terminating run, since
each productive iteration decreases `remains` by at least 1. -/
def deliveredBody (v : Volume) (n : NeedleRead) : Option (List Nat) :=
  match n.body with
  | NBody.single bytes => some bytes
  | NBody.multi pos remains batch =>
    (producerLoop v.data batch (remains + 1) pos remains).map List.flatten

/-- The replay loop of `Volume::open_indexes` (`new = false`): fold the
records of the index file in order into the in-memory map (later records
for a key overwrite earlier ones) while tracking the last record seen,
starting from the `Default` record.  As in the source, the `RawIndex`
entries take their `volume_id` from the id parsed out of the file name,
not from the record. -/
def replayIndexes (volumeId : Nat) (records : List Index) :
    List (String × RawIndex) × RawIndex :=
  records.foldl
    (fun acc r => (ainsert acc.1 r.path ⟨volumeId, r.offset, r.length⟩,
                   ⟨volumeId, r.offset, r.length⟩))
    ([], RawIndex.zero)

/-- `Volume::open` after the path manipulation succeeded: `id` is the
integer parsed from the file stem, `records` the successfully
deserialized index records, `dataFile` the data file's bytes (so
`current_length` is its size).  Fails with `DataCorruption` when that
size differs from `last_index.offset + last_index.length`. -/
def openVolume (id : Nat) (records : List Index) (dataFile : List Nat)
    (maxLength : Nat) : Except VError Volume :=
  let replayed := replayIndexes id records
  let currentLength := dataFile.length
  if currentLength ≠ replayed.2.offset + replayed.2.length then
    Except.error VError.dataCorruption
  else
    Except.ok ⟨id, dataFile, currentLength, maxLength, records, replayed.1⟩

/-- `Volume::new` after the two existence checks passed: both files are
created empty (`create_new`), so `current_length = 0` (the metadata
length of a fresh file) and the map is empty. -/
def Volume.new (id : Nat) (maxLength : Nat) : Volume :=
  ⟨id, [], 0, maxLength, [], []⟩

/-- Invariant of the in-memory index map (spec §3): every entry points
inside the logical data file. -/
def indexInvariant (v : Volume) : Prop :=
  ∀ p ∈ v.indexes, p.2.offset + p.2.length ≤ v.currentLength

instance (v : Volume) : Decidable (indexInvariant v) := by
  unfold indexInvariant
  infer_instance

/-! ## Helper lemmas -/

theorem canWrite_false_of_not_writable (v : Volume) (length : Nat)
    (h : v.writable = false) : canWrite v length = false := by
  simp [canWrite, Volume.readonly, h]

theorem canWrite_false_of_overflow (v : Volume) (length : Nat)
    (h : v.maxLength < v.currentLength + length) : canWrite v length = false := by
  by_cases hr : v.readonly
  · simp [canWrite, hr]
  · simp [canWrite, hr]
    omega

theorem readNeedle_ne_notFound (v : Volume) (index : RawIndex) :
    readNeedle v index ≠ Except.error VError.notFound := by
  unfold readNeedle readNeedleHeader
  by_cases h : index.offset + 4 ≤ v.data.length
  · simp only [if_pos h]
    split_ifs <;> simp
  · simp [h]

/-! ## Claims -/

/-- C4: if the volume is not writable or `current_length + total_length`
exceeds `max_length`, `write_needle` fails with `Overflow` and the volume
(in particular `current_length` and the in-memory index map) is returned
unchanged, no bytes written. -/
theorem C4_overflow_rejection (v : Volume) (path : String) (n : NeedleSrc)
    (h : v.writable = false ∨ v.maxLength < v.currentLength + n.totalLength) :
    writeNeedle v path n = (v, Except.error VError.overflow) := by
  have hcw : canWrite v n.totalLength = false := by
    rcases h with h | h
    · exact canWrite_false_of_not_writable v n.totalLength h
    · exact canWrite_false_of_overflow v n.totalLength h
  simp [writeNeedle, hcw]

/-- C4 witness: a freshly created volume of capacity 0 is not writable,
so any write is rejected with `Overflow` and the volume is unchanged. -/
theorem C4_overflow_rejection_witness :
    (Volume.new 1 0).writable = false ∧
    writeNeedle (Volume.new 1 0) "/a" (needleOf [1]) =
      (Volume.new 1 0, Except.error VError.overflow) :=
  ⟨by decide,
   C4_overflow_rejection (Volume.new 1 0) "/a" (needleOf [1]) (Or.inl (by decide))⟩

/-- C3: `open` fails with `DataCorruption` exactly when the data file's
size differs from `last_record.offset + last_record.length` of the last
replayed record; with a matching size it opens successfully, and a data
file truncated by one byte no longer opens. -/
theorem C3_open_corruption_check (id : Nat) (records : List Index)
    (dataFile : List Nat) (maxLength : Nat) :
    (openVolume id records dataFile maxLength = Except.error VError.dataCorruption ↔
      dataFile.length ≠
        (replayIndexes id records).2.offset + (replayIndexes id records).2.length) ∧
    (dataFile.length =
        (replayIndexes id records).2.offset + (replayIndexes id records).2.length →
      openVolume id records dataFile maxLength =
        Except.ok ⟨id, dataFile, dataFile.length, maxLength, records,
          (replayIndexes id records).1⟩) ∧
    (0 < dataFile.length →
      dataFile.length =
        (replayIndexes id records).2.offset + (replayIndexes id records).2.length →
      openVolume id records dataFile.dropLast maxLength =
        Except.error VError.dataCorruption) := by
  refine ⟨?_, ?_, ?_⟩
  · by_cases h : dataFile.length =
        (replayIndexes id records).2.offset + (replayIndexes id records).2.length
    · simp [openVolume, h]
    · simp [openVolume, h]
  · intro h
    simp [openVolume, h]
  · intro hpos heq
    have hne : ¬ (dataFile.length - 1 =
        (replayIndexes id records).2.offset + (replayIndexes id records).2.length) := by
      omega
    simp [openVolume, List.length_dropLast, hne]

/-- C3 witness: a volume whose single index record covers its 9-byte data
file opens successfully; dropping the data file's last byte makes the
same open fail with `DataCorruption`. -/
theorem C3_open_corruption_check_witness :
    (0 < (List.replicate 9 (0 : Nat)).length) ∧
    (List.replicate 9 (0 : Nat)).length =
      (replayIndexes 1 [⟨"/a", 1, 0, 9⟩]).2.offset +
        (replayIndexes 1 [⟨"/a", 1, 0, 9⟩]).2.length ∧
    openVolume 1 [⟨"/a", 1, 0, 9⟩] (List.replicate 9 0) 1024 =
      Except.ok ⟨1, List.replicate 9 0, 9, 1024, [⟨"/a", 1, 0, 9⟩], [("/a", ⟨1, 0, 9⟩)]⟩ ∧
    openVolume 1 [⟨"/a", 1, 0, 9⟩] (List.replicate 9 0).dropLast 1024 =
      Except.error VError.dataCorruption :=
  ⟨by decide, by decide,
   (C3_open_corruption_check 1 [⟨"/a", 1, 0, 9⟩] (List.replicate 9 0) 1024).2.1 (by decide),
   (C3_open_corruption_check 1 [⟨"/a", 1, 0, 9⟩] (List.replicate 9 0) 1024).2.2
     (by decide) (by decide)⟩

/-- C10: opening a volume whose index file holds zero records replays
nothing, compares the data file size against the all-zero default record,
and therefore succeeds exactly when the data file is empty, yielding
`current_length = 0` and an empty map. -/
theorem C10_empty_index_open (id : Nat) (dataFile : List Nat) (maxLength : Nat) :
    (replayIndexes id []).2 = RawIndex.zero ∧
    ((∃ v, openVolume id [] dataFile maxLength = Except.ok v) ↔ dataFile.length = 0) ∧
    (dataFile = [] →
      openVolume id [] dataFile maxLength =
        Except.ok ⟨id, [], 0, maxLength, [], []⟩) := by
  have hov : openVolume id [] dataFile maxLength =
      if dataFile.length ≠ 0 then Except.error VError.dataCorruption
      else Except.ok ⟨id, dataFile, dataFile.length, maxLength, [], []⟩ := rfl
  refine ⟨rfl, ?_, ?_⟩
  · constructor
    · rintro ⟨v, hv⟩
      rw [hov] at hv
      by_cases h : dataFile.length = 0
      · exact h
      · simp [h] at hv
    · intro h
      refine ⟨⟨id, dataFile, dataFile.length, maxLength, [], []⟩, ?_⟩
      rw [hov]
      simp [h]
  · intro h
    subst h
    rfl

/-- C10 witness: opening id 5 with an empty index file and an empty data
file succeeds with `current_length = 0` and an empty map. -/
theorem C10_empty_index_open_witness :
    openVolume 5 [] ([] : List Nat) 100 = Except.ok ⟨5, [], 0, 100, [], []⟩ :=
  (C10_empty_index_open 5 [] 100).2.2 rfl

/-- C7: `get` fails with `NotFound` exactly when the key is absent from
the map; a present entry pointing past `current_length` yields
`DataCorruption`; a present, in-bounds entry is handed to the read path. -/
theorem C7_get_errors (v : Volume) (path : String) :
    (v.get path = Except.error VError.notFound ↔ alookup v.indexes path = none) ∧
    (∀ index, alookup v.indexes path = some index →
      v.currentLength < index.offset + index.length →
      v.get path = Except.error VError.dataCorruption) ∧
    (∀ index, alookup v.indexes path = some index →
      index.offset + index.length ≤ v.currentLength →
      v.get path = readNeedle v index) := by
  refine ⟨?_, ?_, ?_⟩
  · cases h : alookup v.indexes path with
    | none => simp [Volume.get, h]
    | some index =>
      simp only [Volume.get, h]
      by_cases hb : index.offset + index.length > v.currentLength
      · simp [hb]
      · simp [hb]
        exact readNeedle_ne_notFound v index
  · intro index h hb
    simp [Volume.get, h, hb]
  · intro index h hb
    have hnb : ¬ (index.offset + index.length > v.currentLength) := not_lt.mpr hb
    simp [Volume.get, h, hnb]

/-- C7 witness: on a volume whose map holds a stale entry for key
containing slash x pointing past `current_length = 0`, `get` of an absent
key fails with `NotFound` and `get` of the stale key fails with
`DataCorruption`. -/
theorem C7_get_errors_witness :
    alookup (Volume.mk 1 [] 0 100 [] [("/x", ⟨1, 0, 5⟩)]).indexes "/x" =
      some ⟨1, 0, 5⟩ ∧
    (Volume.mk 1 [] 0 100 [] [("/x", ⟨1, 0, 5⟩)]).currentLength < 0 + 5 ∧
    (Volume.mk 1 [] 0 100 [] [("/x", ⟨1, 0, 5⟩)]).get "/y" =
      Except.error VError.notFound ∧
    (Volume.mk 1 [] 0 100 [] [("/x", ⟨1, 0, 5⟩)]).get "/x" =
      Except.error VError.dataCorruption :=
  ⟨by decide, by decide,
   (C7_get_errors (Volume.mk 1 [] 0 100 [] [("/x", ⟨1, 0, 5⟩)]) "/y").1.mpr (by decide),
   (C7_get_errors (Volume.mk 1 [] 0 100 [] [("/x", ⟨1, 0, 5⟩)]) "/x").2.1
     ⟨1, 0, 5⟩ (by decide) (by decide)⟩

theorem mem_ainsert : ∀ (m : List (String × RawIndex)) (key : String)
    (v : RawIndex) (p : String × RawIndex),
    p ∈ ainsert m key v → p = (key, v) ∨ p ∈ m := by
  intro m key v
  induction m with
  | nil =>
    intro p h
    simp [ainsert] at h
    exact Or.inl h
  | cons hd tl ih =>
    intro p h
    obtain ⟨k, w⟩ := hd
    by_cases hk : k = key
    · simp only [ainsert, if_pos hk] at h
      rw [List.mem_cons] at h
      rcases h with h1 | h1
      · exact Or.inl h1
      · exact Or.inr (List.mem_cons.mpr (Or.inr h1))
    · simp only [ainsert, if_neg hk] at h
      rw [List.mem_cons] at h
      rcases h with h1 | h1
      · exact Or.inr (List.mem_cons.mpr (Or.inl h1))
      · rcases ih p h1 with h2 | h2
        · exact Or.inl h2
        · exact Or.inr (List.mem_cons.mpr (Or.inr h2))

/-- Case analysis on `write_needle`: either it succeeds, advancing
`current_length` by the declared total and inserting the new entry, or it
fails and both `current_length` and the map are those of the input. -/
theorem writeNeedle_state (v : Volume) (path : String) (n : NeedleSrc) :
    ((writeNeedle v path n).2 = Except.ok () ∧
      (writeNeedle v path n).1.currentLength = v.currentLength + n.totalLength ∧
      (writeNeedle v path n).1.indexes =
        ainsert v.indexes path ⟨v.id, v.currentLength, n.totalLength⟩) ∨
    ((writeNeedle v path n).2 ≠ Except.ok () ∧
      (writeNeedle v path n).1.currentLength = v.currentLength ∧
      (writeNeedle v path n).1.indexes = v.indexes) := by
  by_cases hcw : canWrite v n.totalLength
  · cases hc : (collectChunks n.chunks).2 with
    | some e =>
      right
      simp [writeNeedle, hcw, hc]
    | none =>
      by_cases hm : (collectChunks n.chunks).1.length = n.totalLength
      · left
        simp [writeNeedle, hcw, hc, hm]
      · right
        simp [writeNeedle, hcw, hc, hm]
  · right
    simp [writeNeedle, hcw]

/-- C5: a `write_needle` call whose received byte count differs from the
declared `total_length` (the source exhausted without a chunk error)
fails with `WriteLengthMismatch`, and every failing `write_needle` call
leaves `current_length` and the in-memory map unchanged (only the data
file may have grown by the flushed bytes). -/
theorem C5_write_length_mismatch (v : Volume) (path : String) (n : NeedleSrc) :
    (∀ e, (writeNeedle v path n).2 = Except.error e →
      (writeNeedle v path n).1.currentLength = v.currentLength ∧
      (writeNeedle v path n).1.indexes = v.indexes) ∧
    (canWrite v n.totalLength = true → (collectChunks n.chunks).2 = none →
      (collectChunks n.chunks).1.length ≠ n.totalLength →
      (writeNeedle v path n).2 = Except.error VError.writeLengthMismatch) := by
  constructor
  · intro e he
    rcases writeNeedle_state v path n with ⟨hok, _, _⟩ | ⟨_, hcl, hidx⟩
    · rw [he] at hok
      simp at hok
    · exact ⟨hcl, hidx⟩
  · intro hcw hc hm
    simp [writeNeedle, hcw, hc, hm]

/-- C5 witness: a needle declaring 10 bytes whose source yields only 3
fails with `WriteLengthMismatch`; `current_length` and the map stay those
of the fresh volume even though the 3 bytes were flushed to the data
file. -/
theorem C5_write_length_mismatch_witness :
    canWrite (Volume.new 1 100) 10 = true ∧
    (collectChunks [Except.ok [1, 2, 3]]).2 = none ∧
    (collectChunks [Except.ok [1, 2, 3]]).1.length ≠ 10 ∧
    (writeNeedle (Volume.new 1 100) "/a" ⟨10, [Except.ok [1, 2, 3]]⟩).2 =
      Except.error VError.writeLengthMismatch ∧
    (writeNeedle (Volume.new 1 100) "/a" ⟨10, [Except.ok [1, 2, 3]]⟩).1.currentLength = 0 ∧
    (writeNeedle (Volume.new 1 100) "/a" ⟨10, [Except.ok [1, 2, 3]]⟩).1.indexes = [] ∧
    (writeNeedle (Volume.new 1 100) "/a" ⟨10, [Except.ok [1, 2, 3]]⟩).1.data = [1, 2, 3] := by
  have h2 := (C5_write_length_mismatch (Volume.new 1 100) "/a" ⟨10, [Except.ok [1, 2, 3]]⟩).2
    (by decide) (by decide) (by decide)
  have h1 := (C5_write_length_mismatch (Volume.new 1 100) "/a" ⟨10, [Except.ok [1, 2, 3]]⟩).1
    VError.writeLengthMismatch h2
  exact ⟨by decide, by decide, by decide, h2, h1.1, h1.2, by decide⟩

/-- Records of an index file that was not produced by this engine's own
writes: the first record points past the data file's end, the second
(last) one matches it exactly. -/
def corruptRecords : List Index := [⟨"/a", 1, 0, 100⟩, ⟨"/b", 1, 10, 20⟩]

/-- C8 counterexample: `open` replays `corruptRecords` over a 30-byte
data file and succeeds, because the consistency check only inspects the
last record (10 + 20 = 30), yet the resulting map's entry for the first
key points 70 bytes past `current_length` — the invariant does not hold
after this successful open. -/
theorem C8_open_invariant_counterexample :
    openVolume 1 corruptRecords (List.replicate 30 0) 1000 =
      Except.ok ⟨1, List.replicate 30 0, 30, 1000, corruptRecords,
        [("/a", ⟨1, 0, 100⟩), ("/b", ⟨1, 10, 20⟩)]⟩ ∧
    ¬ indexInvariant ⟨1, List.replicate 30 0, 30, 1000, corruptRecords,
        [("/a", ⟨1, 0, 100⟩), ("/b", ⟨1, 10, 20⟩)]⟩ :=
  ⟨rfl, by decide⟩

/-- C8 (amended): the bounds invariant holds after volume creation and is
preserved by `write_needle` whether it succeeds or fails (`get` performs
no mutation at all); a successful `open` only guarantees the bound for
the last replayed record, not for every map entry. -/
theorem C8_invariant_preserved :
    (∀ id maxLength, indexInvariant (Volume.new id maxLength)) ∧
    (∀ v path n, indexInvariant v → indexInvariant (writeNeedle v path n).1) ∧
    (∀ id records dataFile maxLength v,
      openVolume id records dataFile maxLength = Except.ok v →
      v.currentLength =
        (replayIndexes id records).2.offset + (replayIndexes id records).2.length) := by
  refine ⟨?_, ?_, ?_⟩
  · intro id maxLength p hp
    simp [Volume.new] at hp
  · intro v path n hinv
    rcases writeNeedle_state v path n with ⟨_, hcl, hidx⟩ | ⟨_, hcl, hidx⟩
    · intro p hp
      rw [hidx] at hp
      rcases mem_ainsert v.indexes path ⟨v.id, v.currentLength, n.totalLength⟩ p hp with h1 | h1
      · rw [h1, hcl]
      · have := hinv p h1
        rw [hcl]
        omega
    · intro p hp
      rw [hidx] at hp
      rw [hcl]
      exact hinv p hp
  · intro id records dataFile maxLength v hv
    by_cases h : dataFile.length =
        (replayIndexes id records).2.offset + (replayIndexes id records).2.length
    · have hok : openVolume id records dataFile maxLength =
          Except.ok ⟨id, dataFile, dataFile.length, maxLength, records,
            (replayIndexes id records).1⟩ := by
        simp [openVolume, h]
      rw [hok] at hv
      simp only [Except.ok.injEq] at hv
      rw [← hv]
      exact h
    · simp [openVolume, h] at hv

/-- C8 witness: the invariant holds for a fresh volume and is preserved
by a successful small write on it. -/
theorem C8_invariant_preserved_witness :
    indexInvariant (Volume.new 2 64) ∧
    indexInvariant (writeNeedle (Volume.new 2 64) "/a" (needleOf [1, 2])).1 :=
  ⟨C8_invariant_preserved.1 2 64,
   C8_invariant_preserved.2.1 (Volume.new 2 64) "/a" (needleOf [1, 2]) (by decide)⟩

theorem decode_encode (n : Nat) (h : n < 4294967296) : decodeU32 (encodeU32 n) = n := by
  simp only [encodeU32, decodeU32]
  omega

theorem encodeU32_length (n : Nat) : (encodeU32 n).length = 4 := rfl

theorem collectChunks_needleOf (b : List Nat) :
    collectChunks (needleOf b).chunks = (encodeU32 b.length ++ b, none) := by
  simp [needleOf, collectChunks]

theorem alookup_ainsert_self (m : List (String × RawIndex)) (key : String) (v : RawIndex) :
    alookup (ainsert m key v) key = some v := by
  induction m with
  | nil => simp [ainsert, alookup]
  | cons hd tl ih =>
    obtain ⟨k, w⟩ := hd
    by_cases hk : k = key
    · simp [ainsert, hk, alookup]
    · simp [ainsert, hk, alookup, ih]

theorem extractBytes_at (u w : List Nat) (off n : Nat) (hoff : u.length = off) :
    extractBytes (u ++ w) off n = w.take n := by
  simp [extractBytes, List.drop_left' hoff]

/-- A write of a well-formed needle on a volume whose logical length
equals its physical length succeeds: the framed needle is appended to the
data file, one record is appended to the index file, the map entry is
inserted and `current_length` advances by the total length. -/
theorem writeNeedle_append (v : Volume) (path : String) (b : List Nat)
    (hlen : v.currentLength = v.data.length)
    (hw : v.currentLength < v.maxLength)
    (hcap : v.currentLength + (4 + b.length) ≤ v.maxLength) :
    writeNeedle v path (needleOf b) =
      ({ v with
          data := v.data ++ encodeU32 b.length ++ b,
          currentLength := v.currentLength + (4 + b.length),
          indexFile := v.indexFile ++ [⟨path, v.id, v.currentLength, 4 + b.length⟩],
          indexes := ainsert v.indexes path ⟨v.id, v.currentLength, 4 + b.length⟩ },
        Except.ok ()) := by
  have hr : v.readonly = false := by
    simp [Volume.readonly, Volume.writable, hw]
  have hcw : canWrite v (needleOf b).totalLength = true := by
    simp only [canWrite, hr, Bool.false_eq_true, if_false, needleOf]
    simp
    omega
  have hc := collectChunks_needleOf b
  have hm : (encodeU32 b.length ++ b).length = (needleOf b).totalLength := by
    simp [needleOf, encodeU32_length]
  have hwa : writeAt v.data v.currentLength (encodeU32 b.length ++ b) =
      v.data ++ encodeU32 b.length ++ b := by
    rw [hlen]
    simp [writeAt, List.take_length, List.drop_eq_nil_of_le, Nat.le_add_right]
  simp only [writeNeedle, hcw, if_true, hc, hm, hwa]
  simp [needleOf]

theorem get_single (v : Volume) (k : String) (index : RawIndex) (b : List Nat)
    (hlk : alookup v.indexes k = some index)
    (hbound : index.offset + index.length ≤ v.currentLength)
    (hlen : index.length = 4 + b.length)
    (hsmall : index.length ≤ 1048576)
    (hdata : extractBytes v.data index.offset 4 = encodeU32 b.length)
    (hbody : extractBytes v.data (index.offset + 4) b.length = b)
    (hsz : index.offset + 4 + b.length ≤ v.data.length) :
    v.get k = Except.ok ⟨b.length, NBody.single b⟩ := by
  have hb32 : b.length < 4294967296 := by omega
  have hio : index.offset + 4 ≤ v.data.length := by omega
  have hhdr : readNeedleHeader v.data index.offset = Except.ok b.length := by
    unfold readNeedleHeader
    rw [if_pos hio, hdata, decode_encode b.length hb32]
  have hnb : ¬ (index.offset + index.length > v.currentLength) := by omega
  have hbatch : (if b.length > 1048576 then 1048576 else b.length) = b.length := by
    rw [if_neg]
    omega
  simp only [Volume.get, hlk]
  rw [if_neg hnb]
  simp only [readNeedle, hhdr, hbatch]
  rw [if_pos hsmall, if_pos hsz, hbody]

/-- A first write on a fresh volume, in fully explicit form. -/
theorem write_fresh (id maxLength : Nat) (k : String) (b : List Nat)
    (hcap : 4 + b.length ≤ maxLength) :
    writeNeedle (Volume.new id maxLength) k (needleOf b) =
      (⟨id, encodeU32 b.length ++ b, 4 + b.length, maxLength,
        [⟨k, id, 0, 4 + b.length⟩], [(k, ⟨id, 0, 4 + b.length⟩)]⟩, Except.ok ()) := by
  have h := writeNeedle_append (Volume.new id maxLength) k b rfl
    (by simp only [Volume.new]; omega) (by simp only [Volume.new]; omega)
  rw [h]
  simp [Volume.new, ainsert]

/-- A successful write of a well-formed needle implies the two capacity
facts `can_write` checked: the volume was writable and the framed needle
fits. -/
theorem writeNeedle_ok_capacity (v : Volume) (k : String) (b : List Nat)
    (hok : (writeNeedle v k (needleOf b)).2 = Except.ok ()) :
    v.currentLength < v.maxLength ∧
    v.currentLength + (4 + b.length) ≤ v.maxLength := by
  have hcw : canWrite v (needleOf b).totalLength = true := by
    by_contra hc
    have hfalse : canWrite v (needleOf b).totalLength = false := by
      cases h : canWrite v (needleOf b).totalLength
      · rfl
      · exact absurd h hc
    simp [writeNeedle, hfalse] at hok
  have hw : v.currentLength < v.maxLength := by
    by_contra hnw
    have hro : v.readonly = true := by
      simp [Volume.readonly, Volume.writable]
      omega
    simp [canWrite, hro] at hcw
  have hr : v.readonly = false := by
    simp [Volume.readonly, Volume.writable, hw]
  have hcap : v.currentLength + (4 + b.length) ≤ v.maxLength := by
    simp [canWrite, hr, needleOf] at hcw
    omega
  exact ⟨hw, hcap⟩

/-- The single-part round-trip, shared by the C1 and C6 theorems:
writing a needle whose framed total is at most 1 MiB and reading its key
back returns the body as one buffer. -/
theorem get_single_after_write (v : Volume) (k : String) (b : List Nat)
    (hlen : v.currentLength = v.data.length)
    (hsmall : 4 + b.length ≤ 1048576)
    (hok : (writeNeedle v k (needleOf b)).2 = Except.ok ()) :
    (writeNeedle v k (needleOf b)).1.get k = Except.ok ⟨b.length, NBody.single b⟩ := by
  obtain ⟨hw, hcap⟩ := writeNeedle_ok_capacity v k b hok
  rw [writeNeedle_append v k b hlen hw hcap]
  apply get_single _ _ ⟨v.id, v.currentLength, 4 + b.length⟩ b
  · exact alookup_ainsert_self v.indexes k ⟨v.id, v.currentLength, 4 + b.length⟩
  · simp
  · rfl
  · exact hsmall
  · show extractBytes (v.data ++ encodeU32 b.length ++ b) v.currentLength 4 = encodeU32 b.length
    rw [List.append_assoc]
    rw [extractBytes_at v.data (encodeU32 b.length ++ b) v.currentLength 4 hlen.symm]
    exact List.take_left' (encodeU32_length b.length)
  · show extractBytes (v.data ++ encodeU32 b.length ++ b) (v.currentLength + 4) b.length = b
    rw [extractBytes_at (v.data ++ encodeU32 b.length) b (v.currentLength + 4) b.length
      (by simp [encodeU32_length]; omega)]
    exact List.take_length b
  · show v.currentLength + 4 + b.length ≤ (v.data ++ encodeU32 b.length ++ b).length
    simp [encodeU32_length]
    omega

/-- C1 (amended): for every needle whose total length `4 + body` is at
most 1 MiB (the single-part read path), a successful `write_needle` of
body `b` under key `k` on a volume whose logical length matches its data
file is followed by a `get k` that returns exactly `b` as a single-part
body. -/
theorem C1_small_roundtrip (v : Volume) (k : String) (b : List Nat)
    (hlen : v.currentLength = v.data.length)
    (hsmall : 4 + b.length ≤ 1048576)
    (hok : (writeNeedle v k (needleOf b)).2 = Except.ok ()) :
    (writeNeedle v k (needleOf b)).1.get k = Except.ok ⟨b.length, NBody.single b⟩ :=
  get_single_after_write v k b hlen hsmall hok

/-- C1 witness: on a fresh 1 KiB volume, writing the 5-byte body
`hello` under a key and reading it back returns exactly those bytes. -/
theorem C1_small_roundtrip_witness :
    (Volume.new 1 1024).currentLength = (Volume.new 1 1024).data.length ∧
    4 + [104, 101, 108, 108, 111].length ≤ 1048576 ∧
    (writeNeedle (Volume.new 1 1024) "/a" (needleOf [104, 101, 108, 108, 111])).2 =
      Except.ok () ∧
    (writeNeedle (Volume.new 1 1024) "/a" (needleOf [104, 101, 108, 108, 111])).1.get "/a" =
      Except.ok ⟨5, NBody.single [104, 101, 108, 108, 111]⟩ :=
  ⟨rfl, by decide, rfl,
   C1_small_roundtrip (Volume.new 1 1024) "/a" [104, 101, 108, 108, 111] rfl (by decide) rfl⟩

/-- Replaying one more record folds one more latest-wins insert into the
map and makes that record the tracked last record. -/
theorem replayIndexes_append (id : Nat) (rs : List Index) (r : Index) :
    replayIndexes id (rs ++ [r]) =
      (ainsert (replayIndexes id rs).1 r.path ⟨id, r.offset, r.length⟩,
        (⟨id, r.offset, r.length⟩ : RawIndex)) := by
  unfold replayIndexes
  rw [List.foldl_append]
  rfl

/-- C6 (amended): writing key `k` twice with different bodies (both
writes succeeding, on a volume whose logical length matches its data
file) appends exactly two physical records for `k` to the index file and
leaves the second write's entry in the map: replaying the index file in
order reproduces the latest-wins map whenever it did so before the
writes, and `get k` returns the second body provided the second needle's
total length is at most 1 MiB (the single-part read path — see
`C6_overwrite_counterexample` for larger second bodies). -/
theorem C6_overwrite_semantics (v : Volume) (k : String) (b1 b2 : List Nat)
    (v1 v2 : Volume)
    (hlen : v.currentLength = v.data.length)
    (hsmall : 4 + b2.length ≤ 1048576)
    (_hdiff : b1 ≠ b2)
    (h1 : writeNeedle v k (needleOf b1) = (v1, Except.ok ()))
    (h2 : writeNeedle v1 k (needleOf b2) = (v2, Except.ok ())) :
    v2.get k = Except.ok ⟨b2.length, NBody.single b2⟩ ∧
    v2.indexFile = v.indexFile ++
      [⟨k, v.id, v.currentLength, 4 + b1.length⟩,
       ⟨k, v.id, v.currentLength + (4 + b1.length), 4 + b2.length⟩] ∧
    ((replayIndexes v.id v.indexFile).1 = v.indexes →
      (replayIndexes v.id v2.indexFile).1 = v2.indexes) := by
  obtain ⟨hw1, hcap1⟩ := writeNeedle_ok_capacity v k b1 (by rw [h1])
  have e1 := writeNeedle_append v k b1 hlen hw1 hcap1
  rw [h1] at e1
  injection e1 with hv1 _
  have hlen1 : v1.currentLength = v1.data.length := by
    rw [hv1]
    simp [encodeU32_length]
    omega
  have hg := get_single_after_write v1 k b2 hlen1 hsmall (by rw [h2])
  rw [h2] at hg
  obtain ⟨hw2, hcap2⟩ := writeNeedle_ok_capacity v1 k b2 (by rw [h2])
  have e2 := writeNeedle_append v1 k b2 hlen1 hw2 hcap2
  rw [h2] at e2
  injection e2 with hv2 _
  refine ⟨hg, ?_, ?_⟩
  · rw [hv2, hv1]
    simp
  · intro hreplay
    have hfile : v2.indexFile =
        (v.indexFile ++ [⟨k, v.id, v.currentLength, 4 + b1.length⟩]) ++
          [⟨k, v.id, v.currentLength + (4 + b1.length), 4 + b2.length⟩] := by
      rw [hv2, hv1]
    rw [hfile, replayIndexes_append, replayIndexes_append]
    simp [hreplay, hv2, hv1]

/-- C6 witness: writing `hello` then `world!` under one key on a fresh
1 KiB volume: `get` returns `world!` as a single part, the index file
gains exactly the two records for the key, and replaying it reproduces
the map. -/
theorem C6_overwrite_semantics_witness :
    (writeNeedle (Volume.new 1 1024) "/a" (needleOf [104, 101, 108, 108, 111])).2 =
      Except.ok () ∧
    (writeNeedle (writeNeedle (Volume.new 1 1024) "/a"
      (needleOf [104, 101, 108, 108, 111])).1 "/a"
      (needleOf [119, 111, 114, 108, 100, 33])).2 = Except.ok () ∧
    (writeNeedle (writeNeedle (Volume.new 1 1024) "/a"
      (needleOf [104, 101, 108, 108, 111])).1 "/a"
      (needleOf [119, 111, 114, 108, 100, 33])).1.get "/a" =
      Except.ok ⟨6, NBody.single [119, 111, 114, 108, 100, 33]⟩ ∧
    (writeNeedle (writeNeedle (Volume.new 1 1024) "/a"
      (needleOf [104, 101, 108, 108, 111])).1 "/a"
      (needleOf [119, 111, 114, 108, 100, 33])).1.indexFile =
      [⟨"/a", 1, 0, 9⟩, ⟨"/a", 1, 9, 10⟩] ∧
    (replayIndexes 1 (writeNeedle (writeNeedle (Volume.new 1 1024) "/a"
      (needleOf [104, 101, 108, 108, 111])).1 "/a"
      (needleOf [119, 111, 114, 108, 100, 33])).1.indexFile).1 =
      (writeNeedle (writeNeedle (Volume.new 1 1024) "/a"
        (needleOf [104, 101, 108, 108, 111])).1 "/a"
        (needleOf [119, 111, 114, 108, 100, 33])).1.indexes := by
  have h := C6_overwrite_semantics (Volume.new 1 1024) "/a"
    [104, 101, 108, 108, 111] [119, 111, 114, 108, 100, 33]
    (writeNeedle (Volume.new 1 1024) "/a" (needleOf [104, 101, 108, 108, 111])).1
    (writeNeedle (writeNeedle (Volume.new 1 1024) "/a"
      (needleOf [104, 101, 108, 108, 111])).1 "/a"
      (needleOf [119, 111, 114, 108, 100, 33])).1
    rfl (by decide) (by decide) rfl rfl
  exact ⟨rfl, rfl, h.1, h.2.1, h.2.2 rfl⟩

theorem producerLoop_done (d : List Nat) (b f pos : Nat) :
    producerLoop d b (f + 1) pos 0 = some [] := by
  simp [producerLoop]

theorem producerLoop_succ (d : List Nat) (b f pos remains : Nat) (hr : remains ≠ 0) :
    producerLoop d b (f + 1) pos remains =
      match producerLoop d b f (pos + min b (d.length - pos))
          (remains - min b (d.length - pos)) with
      | none => none
      | some rest => some ((d.drop pos).take (min b (d.length - pos)) :: rest) := by
  simp [producerLoop, hr]

/-- A producer whose position has reached end-of-file while `remains` is
still positive never finishes: each `read` returns 0 bytes, `remains`
never decreases, and the loop sends empty chunks forever. -/
theorem producerLoop_spin (d : List Nat) (b : Nat) :
    ∀ f pos remains, remains ≠ 0 → d.length ≤ pos →
      producerLoop d b f pos remains = none := by
  intro f
  induction f with
  | zero => intro pos remains _ _; rfl
  | succ f ih =>
    intro pos remains hr hp
    have hsub : d.length - pos = 0 := Nat.sub_eq_zero_of_le hp
    have hmin : min b (d.length - pos) = 0 := by rw [hsub, Nat.min_zero]
    rw [producerLoop_succ d b f pos remains hr, hmin]
    simp only [Nat.add_zero, Nat.sub_zero]
    rw [ih pos remains hr hp]

/-- A body 4 bytes short of 2 MiB, so its framed needle (header included)
is exactly 2 MiB = 2097152 bytes and `index.length` exceeds 1 MiB. -/
def bodyBig : List Nat := List.replicate 2097148 7

theorem bodyBig_length : bodyBig.length = 2097148 := by
  rw [bodyBig, List.length_replicate]

/-- The fresh 16 MiB volume after writing `bodyBig` under the big key
(see `vBig1_write`). -/
def vBig1 : Volume :=
  ⟨7, encodeU32 2097148 ++ bodyBig, 2097152, 16777216,
    [⟨"/big", 7, 0, 2097152⟩], [("/big", ⟨7, 0, 2097152⟩)]⟩

/-- `vBig1` after a second, 5-byte needle (see `vBig2_write`), so the big
needle is no longer the last bytes of the data file. -/
def vBig2 : Volume :=
  ⟨7, (encodeU32 2097148 ++ bodyBig) ++ encodeU32 1 ++ [9], 2097157, 16777216,
    [⟨"/big", 7, 0, 2097152⟩, ⟨"/b", 7, 2097152, 5⟩],
    [("/big", ⟨7, 0, 2097152⟩), ("/b", ⟨7, 2097152, 5⟩)]⟩

/-- The needle `get` returns for the big key on `vBig2`: multi-part body
with producer state position 4, remains 2097152, batch 1 MiB. -/
def nrBig : NeedleRead := ⟨2097148, NBody.multi 4 2097152 1048576⟩

theorem vBig1_write :
    writeNeedle (Volume.new 7 16777216) "/big" (needleOf bodyBig) =
      (vBig1, Except.ok ()) := by
  have h := write_fresh 7 16777216 "/big" bodyBig (by rw [bodyBig_length]; norm_num)
  rw [h]
  unfold vBig1
  rw [bodyBig_length]

theorem vBig2_write :
    writeNeedle vBig1 "/b" (needleOf [9]) = (vBig2, Except.ok ()) := by
  have h := writeNeedle_append vBig1 "/b" [9]
    (by show (2097152 : Nat) = vBig1.data.length
        have h2 : vBig1.data = encodeU32 2097148 ++ bodyBig := rfl
        rw [h2, List.length_append, encodeU32_length, bodyBig_length])
    (by show (2097152 : Nat) < 16777216; norm_num)
    (by show (2097152 : Nat) + (4 + [9].length) ≤ 16777216; norm_num)
  rw [h]
  rfl

theorem vBig2_data_length : vBig2.data.length = 2097157 := by
  have h : vBig2.data = (encodeU32 2097148 ++ bodyBig) ++ encodeU32 1 ++ [9] := rfl
  rw [h, List.length_append, List.length_append, List.length_append,
    encodeU32_length, encodeU32_length, bodyBig_length, List.length_singleton]

theorem get_multi (v : Volume) (k : String) (index : RawIndex) (bl : Nat)
    (hlk : alookup v.indexes k = some index)
    (hbound : index.offset + index.length ≤ v.currentLength)
    (hio : index.offset + 4 ≤ v.data.length)
    (hdata : extractBytes v.data index.offset 4 = encodeU32 bl)
    (hbl : bl < 4294967296)
    (hbig : 1048576 < index.length) :
    v.get k = Except.ok ⟨bl, NBody.multi (index.offset + 4) index.length
      (if bl > 1048576 then 1048576 else bl)⟩ := by
  have hhdr : readNeedleHeader v.data index.offset = Except.ok bl := by
    unfold readNeedleHeader
    rw [if_pos hio, hdata, decode_encode bl hbl]
  have hnb : ¬ (index.offset + index.length > v.currentLength) := by omega
  have hns : ¬ (index.length ≤ 1048576) := by omega
  simp only [Volume.get, hlk]
  rw [if_neg hnb]
  simp only [readNeedle, hhdr]
  rw [if_neg hns]

theorem producerLoop_succ2 (d : List Nat) (b f pos remains cur : Nat) (hr : remains ≠ 0)
    (hcur : cur = min b (d.length - pos)) :
    producerLoop d b (f + 1) pos remains =
      Option.map (fun rest => (d.drop pos).take cur :: rest)
        (producerLoop d b f (pos + cur) (remains - cur)) := by
  subst hcur
  rw [producerLoop_succ d b f pos remains hr]
  cases producerLoop d b f (pos + min b (d.length - pos))
    (remains - min b (d.length - pos)) <;> rfl

theorem get_vBig2 :
    vBig2.get "/big" = Except.ok ⟨2097148, NBody.multi 4 2097152 1048576⟩ := by
  have hdata : extractBytes vBig2.data 0 4 = encodeU32 2097148 := by
    have h0 : vBig2.data = encodeU32 2097148 ++ (bodyBig ++ (encodeU32 1 ++ [9])) := by
      rw [show vBig2.data = (encodeU32 2097148 ++ bodyBig) ++ encodeU32 1 ++ [9] from rfl,
        List.append_assoc, List.append_assoc]
    unfold extractBytes
    rw [h0, List.drop_zero]
    exact List.take_left' (encodeU32_length 2097148)
  have hg := get_multi vBig2 "/big" ⟨7, 0, 2097152⟩ 2097148 rfl
    (by show (0 : Nat) + 2097152 ≤ 2097157; norm_num)
    (by show (0 : Nat) + 4 ≤ vBig2.data.length; rw [vBig2_data_length]; norm_num)
    hdata (by norm_num) (by show (1048576 : Nat) < 2097152; norm_num)
  exact hg

theorem producer_vBig2 (f : Nat) :
    producerLoop vBig2.data 1048576 (f + 1 + 1 + 1) 4 2097152 =
      some [(vBig2.data.drop 4).take 1048576, (vBig2.data.drop 1048580).take 1048576] := by
  rw [producerLoop_succ2 vBig2.data 1048576 (f + 1 + 1) 4 2097152 1048576 (by norm_num)
    (by rw [vBig2_data_length]; omega)]
  show Option.map (fun rest => (vBig2.data.drop 4).take 1048576 :: rest)
      (producerLoop vBig2.data 1048576 (f + 1 + 1) 1048580 1048576) =
    some [(vBig2.data.drop 4).take 1048576, (vBig2.data.drop 1048580).take 1048576]
  rw [producerLoop_succ2 vBig2.data 1048576 (f + 1) 1048580 1048576 1048576 (by norm_num)
    (by rw [vBig2_data_length]; omega)]
  show Option.map (fun rest => (vBig2.data.drop 4).take 1048576 :: rest)
      (Option.map (fun rest => (vBig2.data.drop 1048580).take 1048576 :: rest)
        (producerLoop vBig2.data 1048576 (f + 1) 2097156 0)) =
    some [(vBig2.data.drop 4).take 1048576, (vBig2.data.drop 1048580).take 1048576]
  rw [producerLoop_done]
  rfl

/-- C2 (code bug): `bodyBig` (2097148 bytes) is successfully written and
followed by a second needle; `get` of the big key takes the chunked path,
whose producer starts at `offset + 4` but counts down `remains =
index.length` (header included).  It therefore terminates after two full
1 MiB chunks whose concatenation is 2097152 bytes long — the body plus
the first 4 bytes of the next needle — instead of the 2097148-byte body. -/
theorem C2_chunked_read_mismatch :
    (writeNeedle (Volume.new 7 16777216) "/big" (needleOf bodyBig)).2 = Except.ok () ∧
    (writeNeedle vBig1 "/b" (needleOf [9])).2 = Except.ok () ∧
    vBig2.get "/big" = Except.ok ⟨2097148, NBody.multi 4 2097152 1048576⟩ ∧
    producerLoop vBig2.data 1048576 2097153 4 2097152 =
      some [(vBig2.data.drop 4).take 1048576, (vBig2.data.drop 1048580).take 1048576] ∧
    ((vBig2.data.drop 4).take 1048576 ++ (vBig2.data.drop 1048580).take 1048576).length =
      2097152 ∧
    bodyBig.length = 2097148 := by
  refine ⟨by rw [vBig1_write], by rw [vBig2_write], get_vBig2, ?_, ?_, bodyBig_length⟩
  · have h := producer_vBig2 2097150
    rw [show (2097150 : Nat) + 1 + 1 + 1 = 2097153 from by norm_num] at h
    exact h
  · rw [List.length_append, List.length_take, List.length_take, List.length_drop,
      List.length_drop, vBig2_data_length]
    omega

/-- C1 counterexample: the big body is successfully written (then a
second needle follows), but `get` of its key yields a multi-part needle
whose delivered bytes are not the original body — the chunked read path
returns `index.length` bytes starting at the body's first byte, 4 more
than the body itself. -/
theorem C1_roundtrip_counterexample :
    (writeNeedle (Volume.new 7 16777216) "/big" (needleOf bodyBig)).2 = Except.ok () ∧
    (writeNeedle vBig1 "/b" (needleOf [9])).2 = Except.ok () ∧
    vBig2.get "/big" = Except.ok nrBig ∧
    deliveredBody vBig2 nrBig ≠ some bodyBig := by
  refine ⟨by rw [vBig1_write], by rw [vBig2_write], get_vBig2, ?_⟩
  intro hcontra
  have hd : deliveredBody vBig2 nrBig =
      some ((vBig2.data.drop 4).take 1048576 ++
        ((vBig2.data.drop 1048580).take 1048576 ++ [])) := by
    show (producerLoop vBig2.data 1048576 (2097152 + 1) 4 2097152).map List.flatten =
      some ((vBig2.data.drop 4).take 1048576 ++
        ((vBig2.data.drop 1048580).take 1048576 ++ []))
    rw [show (2097152 : Nat) + 1 = 2097150 + 1 + 1 + 1 from by norm_num]
    rw [producer_vBig2 2097150]
    rfl
  rw [hd] at hcontra
  injection hcontra with hx
  have hl := congrArg List.length hx
  rw [List.append_nil, List.length_append, List.length_take, List.length_take,
    List.length_drop, List.length_drop, vBig2_data_length, bodyBig_length] at hl
  omega

/-- A body of 1048573 bytes: small enough that `batch_size` is the body
length itself, but its framed total 1048577 exceeds 1 MiB, so the read
takes the chunked path. -/
def bodyMid : List Nat := List.replicate 1048573 5

theorem bodyMid_length : bodyMid.length = 1048573 := by
  rw [bodyMid, List.length_replicate]

/-- The fresh 4 MiB volume after writing `bodyMid` as its only (and thus
last) needle (see `vMid_write`). -/
def vMid : Volume :=
  ⟨3, encodeU32 1048573 ++ bodyMid, 1048577, 4194304,
    [⟨"/k", 3, 0, 1048577⟩], [("/k", ⟨3, 0, 1048577⟩)]⟩

theorem vMid_write :
    writeNeedle (Volume.new 3 4194304) "/k" (needleOf bodyMid) =
      (vMid, Except.ok ()) := by
  have h := write_fresh 3 4194304 "/k" bodyMid (by rw [bodyMid_length]; norm_num)
  rw [h]
  unfold vMid
  rw [bodyMid_length]

theorem vMid_data_length : vMid.data.length = 1048577 := by
  have h : vMid.data = encodeU32 1048573 ++ bodyMid := rfl
  rw [h, List.length_append, encodeU32_length, bodyMid_length]

theorem get_vMid :
    vMid.get "/k" = Except.ok ⟨1048573, NBody.multi 4 1048577 1048573⟩ := by
  have hdata : extractBytes vMid.data 0 4 = encodeU32 1048573 := by
    have h0 : vMid.data = encodeU32 1048573 ++ bodyMid := rfl
    unfold extractBytes
    rw [h0, List.drop_zero]
    exact List.take_left' (encodeU32_length 1048573)
  have hg := get_multi vMid "/k" ⟨3, 0, 1048577⟩ 1048573 rfl
    (by show (0 : Nat) + 1048577 ≤ 1048577; norm_num)
    (by show (0 : Nat) + 4 ≤ vMid.data.length; rw [vMid_data_length]; norm_num)
    hdata (by norm_num) (by show (1048576 : Nat) < 1048577; norm_num)
  exact hg

/-- C9 (code bug): on a volume whose last needle has `index.length =
1048577 > 1 MiB`, the read path spawns a producer with `remains =
index.length` but starts reading at `offset + 4`.  The data file ends 4
bytes before `remains` can reach 0; once the position hits end-of-file
every `read` returns 0 bytes, `remains` stays at 4, and the loop never
terminates for any amount of fuel — even though every read succeeds and
the consumer keeps receiving. -/
theorem C9_producer_nonterminating :
    (writeNeedle (Volume.new 3 4194304) "/k" (needleOf bodyMid)).2 = Except.ok () ∧
    vMid.get "/k" = Except.ok ⟨1048573, NBody.multi 4 1048577 1048573⟩ ∧
    ∀ fuel, producerLoop vMid.data 1048573 fuel 4 1048577 = none := by
  refine ⟨by rw [vMid_write], get_vMid, ?_⟩
  intro fuel
  cases fuel with
  | zero => rfl
  | succ f =>
    rw [producerLoop_succ2 vMid.data 1048573 f 4 1048577 1048573 (by norm_num)
      (by rw [vMid_data_length]; omega)]
    rw [producerLoop_spin vMid.data 1048573 f (4 + 1048573) (1048577 - 1048573)
      (by norm_num) (by rw [vMid_data_length])]
    rfl

/-- The fresh 16 MiB volume after writing a 1-byte body under the key
that the C6 counterexample then overwrites (see `v61_write`). -/
def v61 : Volume :=
  ⟨6, encodeU32 1 ++ [1], 5, 16777216, [⟨"/a", 6, 0, 5⟩], [("/a", ⟨6, 0, 5⟩)]⟩

/-- `v61` after overwriting the key with `bodyBig` (see `v62_write`):
the second, 2 MiB version is now the volume's last needle and the map
points at it. -/
def v62 : Volume :=
  ⟨6, (encodeU32 1 ++ [1]) ++ encodeU32 2097148 ++ bodyBig, 2097157, 16777216,
    [⟨"/a", 6, 0, 5⟩, ⟨"/a", 6, 5, 2097152⟩], [("/a", ⟨6, 5, 2097152⟩)]⟩

/-- The needle `get` returns for the overwritten key on `v62`:
multi-part body with producer state position 9, remains 2097152,
batch 1 MiB. -/
def nr62 : NeedleRead := ⟨2097148, NBody.multi 9 2097152 1048576⟩

theorem v61_write :
    writeNeedle (Volume.new 6 16777216) "/a" (needleOf [1]) = (v61, Except.ok ()) := by
  have h := write_fresh 6 16777216 "/a" [1] (by norm_num)
  rw [h]
  norm_num [v61]

theorem v62_write :
    writeNeedle v61 "/a" (needleOf bodyBig) = (v62, Except.ok ()) := by
  have h := writeNeedle_append v61 "/a" bodyBig
    (by show (5 : Nat) = v61.data.length; rfl)
    (by show (5 : Nat) < 16777216; norm_num)
    (by rw [bodyBig_length]; norm_num [v61])
  rw [h]
  rw [bodyBig_length]
  rfl

theorem v62_data_length : v62.data.length = 2097157 := by
  have h : v62.data = (encodeU32 1 ++ [1]) ++ encodeU32 2097148 ++ bodyBig := rfl
  rw [h, List.length_append, List.length_append, List.length_append,
    encodeU32_length, encodeU32_length, bodyBig_length, List.length_singleton]

theorem get_v62 :
    v62.get "/a" = Except.ok ⟨2097148, NBody.multi 9 2097152 1048576⟩ := by
  have hdata : extractBytes v62.data 5 4 = encodeU32 2097148 := by
    have h0 : v62.data = (encodeU32 1 ++ [1]) ++ (encodeU32 2097148 ++ bodyBig) := by
      rw [show v62.data = (encodeU32 1 ++ [1]) ++ encodeU32 2097148 ++ bodyBig from rfl,
        List.append_assoc]
    rw [h0, extractBytes_at (encodeU32 1 ++ [1]) (encodeU32 2097148 ++ bodyBig) 5 4 (by decide)]
    exact List.take_left' (encodeU32_length 2097148)
  have hg := get_multi v62 "/a" ⟨6, 5, 2097152⟩ 2097148 rfl
    (by show (5 : Nat) + 2097152 ≤ 2097157; norm_num)
    (by show (5 : Nat) + 4 ≤ v62.data.length; rw [v62_data_length]; norm_num)
    hdata (by norm_num) (by show (1048576 : Nat) < 2097152; norm_num)
  exact hg

/-- The producer spawned for the overwritten key on `v62` never
finishes: it consumes the 2097148 body bytes in two chunks, reaches
end-of-file with `remains = 4`, and then spins on 0-byte reads. -/
theorem producer_v62 :
    producerLoop v62.data 1048576 (2097152 + 1) 9 2097152 = none := by
  rw [producerLoop_succ2 v62.data 1048576 2097152 9 2097152 1048576 (by norm_num)
    (by rw [v62_data_length]; omega)]
  show Option.map (fun rest => (v62.data.drop 9).take 1048576 :: rest)
      (producerLoop v62.data 1048576 (2097151 + 1) 1048585 1048576) = none
  rw [producerLoop_succ2 v62.data 1048576 2097151 1048585 1048576 1048572 (by norm_num)
    (by rw [v62_data_length]; omega)]
  show Option.map (fun rest => (v62.data.drop 9).take 1048576 :: rest)
      (Option.map (fun rest => (v62.data.drop 1048585).take 1048572 :: rest)
        (producerLoop v62.data 1048576 2097151 2097157 4)) = none
  rw [producerLoop_spin v62.data 1048576 2097151 2097157 4 (by norm_num)
    (by rw [v62_data_length])]
  rfl

/-- C6 counterexample: overwriting a key's 1-byte body with the
2097148-byte `bodyBig` (both writes succeed, the bodies differ) makes
the second version the volume's last needle.  `get` of the key then
takes the chunked read path, and its producer — counting down
`remains = index.length` while reading from `offset + 4` — reaches
end-of-file with `remains = 4` and never terminates, so the delivered
bytes are not the second body: the original claim fails as stated. -/
theorem C6_overwrite_counterexample :
    ([1] : List Nat) ≠ bodyBig ∧
    writeNeedle (Volume.new 6 16777216) "/a" (needleOf [1]) = (v61, Except.ok ()) ∧
    writeNeedle v61 "/a" (needleOf bodyBig) = (v62, Except.ok ()) ∧
    v62.get "/a" = Except.ok nr62 ∧
    deliveredBody v62 nr62 ≠ some bodyBig := by
  refine ⟨?_, v61_write, v62_write, get_v62, ?_⟩
  · intro h
    have hl := congrArg List.length h
    rw [bodyBig_length, List.length_singleton] at hl
    omega
  · intro h
    have hd : deliveredBody v62 nr62 = none := by
      show (producerLoop v62.data 1048576 (2097152 + 1) 9 2097152).map List.flatten = none
      rw [producer_v62]
      rfl
    rw [hd] at h
    exact Option.noConfusion h
